import Mathlib

/-!
Verification of the centerline-description logic module (src/main.py) of
agrc/metes-without-bounds.

The module is shallowly embedded: Python floats are modelled as exact
rationals, Python ints as integers, file contents as lists of rows, and the
two geometry-engine collaborators (coordinate projection and the polyline
intersection) as function parameters, matching the interface contracts the
module itself relies on.  The transcendental call
`math.degrees(math.atan2(dx, dy))` is the trusted math-library boundary: its
result (a degree value in the interval from -180 to 180) is passed to the
embedded `calculate_grid_bearing` as the `azimuth0` argument, and everything
the source does with that value afterwards is embedded exactly.
-/

namespace MetesWithoutBounds

/-- Python `int(x)` on a float: truncation toward zero (`Int.tdiv` of the
numerator by the denominator). -/
def pyInt (x : ℚ) : ℤ := x.num.tdiv (x.den : ℤ)

/-- Python 1-argument `round(x)`: round half to even (banker's rounding). -/
def pyRound (x : ℚ) : ℤ :=
  let f := ⌊x⌋
  if x - f < 1 / 2 then f
  else if 1 / 2 < x - f then f + 1
  else if f % 2 = 0 then f else f + 1

/-- Python `round(x, ndigits)` with a positive `ndigits`, on exact rationals. -/
def pyRoundTo (x : ℚ) (ndigits : ℕ) : ℚ :=
  (pyRound (x * 10 ^ ndigits) : ℚ) / 10 ^ ndigits

/-- Python `divmod(a, b)` on floats: `(floor(a / b), a - b * floor(a / b))`. -/
def pyDivmod (a b : ℚ) : ℚ × ℚ := ((⌊a / b⌋ : ℚ), a - b * (⌊a / b⌋ : ℚ))

/-- Python `a % b` on floats (sign follows `b`; only used with `b = 360`). -/
def pyMod (a b : ℚ) : ℚ := a - b * (⌊a / b⌋ : ℚ)

/-- Decimal digits of `n`, most significant first, with explicit fuel
(structural recursion; `fuel > n` is always enough). -/
def natDigitsAux : ℕ → ℕ → List Char
  | 0, _ => []
  | fuel + 1, n =>
    if n < 10 then [Nat.digitChar n]
    else natDigitsAux fuel (n / 10) ++ [Nat.digitChar (n % 10)]

/-- Python `str` of a natural number. -/
def natRepr (n : ℕ) : String := String.mk (natDigitsAux (n + 1) n)

/-- Python `str` of an integer. -/
def intRepr (i : ℤ) : String := (if i < 0 then "-" else "") ++ natRepr i.natAbs

/-- Python format-spec zero fill (`{v:0Nd}` and the width field of
`{v:0N.Pf}`) for a non-negative rendered value: left-pad with zeros up to
`width` characters. -/
def padZeroLeft (width : ℕ) (s : String) : String :=
  if s.length < width then String.mk (List.replicate (width - s.length) '0') ++ s else s

/-- Python `{x:.Pf}` fixed-point rendering of a float with `prec` digits
after the decimal point (correct rounding, half to even). -/
def formatFixed (prec : ℕ) (x : ℚ) : String :=
  let n : ℤ := pyRound (x * 10 ^ prec)
  let a : ℕ := n.natAbs
  (if n < 0 then "-" else "")
    ++ natRepr (a / 10 ^ prec) ++ "." ++ padZeroLeft prec (natRepr (a % 10 ^ prec))

/-- Python `{x:0W.Pf}`: fixed-point rendering with minimum total width `W`,
zero-filled. -/
def formatFloat (width prec : ℕ) (x : ℚ) : String :=
  padZeroLeft width (formatFixed prec x)

/-- Python `{x}` (`str`/`repr`) of a float that is an exact multiple of
one tenth, as produced by `meters_to_us_feet`: shortest repr always shows
exactly one digit after the decimal point. -/
def floatRepr1 (x : ℚ) : String :=
  let n : ℤ := pyRound (x * 10)
  (if n < 0 then "-" else "") ++ natRepr (n.natAbs / 10) ++ "." ++ natRepr (n.natAbs % 10)

/-- A coordinate pair, as the `X`/`Y` attributes of the point objects the
module reads (`arcpy.Point` / the mock points of the test suite). -/
structure Point where
  X : ℚ
  Y : ℚ
deriving Repr, DecidableEq, Inhabited

/-- `QUOTE_CHAR = '"'` (src/main.py line 28). -/
def QUOTE_CHAR : String := "\x22"

/- ---------------------------------------------------------------------
`decimal_degrees_to_dms` (src/main.py lines 56-99).  The latitude and the
longitude block of the source are identical up to the selected coordinate
and the direction letters, so they are embedded through one axis function.
All intermediate quantities are non-negative because the axis value is
taken through `abs` first.
--------------------------------------------------------------------- -/

/-- `divmod(latitude * 3600, 60)` of line 83/92: `(minutes, seconds)`. -/
def dms_divmod1 (value : ℚ) : ℚ × ℚ := pyDivmod (|value| * 3600) 60

/-- `divmod(lat_minutes, 60)` of line 84/93: `(degrees, minutes)`. -/
def dms_divmod2 (value : ℚ) : ℚ × ℚ := pyDivmod (dms_divmod1 value).1 60

/-- `int(lat_degrees)` of line 85/94. -/
def dms_degrees (value : ℚ) : ℤ := pyInt (dms_divmod2 value).1

/-- `int(lat_minutes)` of line 86/95. -/
def dms_minutes (value : ℚ) : ℤ := pyInt (dms_divmod2 value).2

/-- The seconds remainder kept as a float (line 83/92). -/
def dms_seconds (value : ℚ) : ℚ := (dms_divmod1 value).2

/-- One axis of `decimal_degrees_to_dms`:
`f"{deg}°{min:02d}\x27{sec:02.5f}{QUOTE_CHAR}{dir}"` with
`dir = posDir if value >= 0 else negDir` (lines 82-88 resp. 91-97). -/
def dmsAxis (value : ℚ) (posDir negDir : String) : String :=
  intRepr (dms_degrees value) ++ "°" ++ padZeroLeft 2 (intRepr (dms_minutes value))
    ++ "\x27" ++ formatFloat 2 5 (dms_seconds value) ++ QUOTE_CHAR
    ++ (if 0 ≤ value then posDir else negDir)

/-- `decimal_degrees_to_dms(point)` (lines 56-99): latitude string from
`point.Y` with N/S, longitude string from `point.X` with E/W. -/
def decimal_degrees_to_dms (point : Point) : String × String :=
  (dmsAxis point.Y "N" "S", dmsAxis point.X "E" "W")

/- ---------------------------------------------------------------------
`meters_to_us_feet` (lines 176-190) and `calculate_grid_bearing`
(lines 102-173).  `azimuth0` stands for the value of
`math.degrees(math.atan2(delta_x, delta_y))`, the trusted math-library
boundary; atan2 yields radians in [-pi, pi], so `azimuth0` lies in
[-180, 180].  Everything after that call is embedded exactly.
--------------------------------------------------------------------- -/

/-- `meters_to_us_feet(meters) = round(meters * 3937 / 1200, 1)` (line 190). -/
def meters_to_us_feet (meters : ℚ) : ℚ := pyRoundTo (meters * 3937 / 1200) 1

/-- `azimuth = (azimuth + 360) % 360` (line 139). -/
def normalize_azimuth (azimuth0 : ℚ) : ℚ := pyMod (azimuth0 + 360) 360

/-- The `if/elif/else` quadrant chain of lines 142-161, producing
`(angle, y_direction, x_direction)`.  The final `else` of the source
covers everything the first three guards reject. -/
def azimuth_quadrant (azimuth : ℚ) : ℚ × String × String :=
  if 0 ≤ azimuth ∧ azimuth < 90 then (azimuth, "N", "E")
  else if 90 ≤ azimuth ∧ azimuth < 180 then (180 - azimuth, "S", "E")
  else if 180 ≤ azimuth ∧ azimuth < 270 then (azimuth - 180, "S", "W")
  else (360 - azimuth, "N", "W")

/-- Lines 163-171: DMS decomposition of the quadrant angle and the final
f-string
`f"{y_direction}{degrees}°{minutes}\x27{seconds}{QUOTE_CHAR}{x_direction} {distance_feet} ft"`. -/
def bearingRender (angle : ℚ) (y_direction x_direction : String) (distance_feet : ℚ) : String :=
  let degrees : ℤ := pyInt angle
  let minutes_float : ℚ := (angle - (degrees : ℚ)) * 60
  let minutes : ℤ := pyInt minutes_float
  let seconds : ℤ := pyRound ((minutes_float - (minutes : ℚ)) * 60)
  y_direction ++ intRepr degrees ++ "°" ++ intRepr minutes ++ "\x27" ++ intRepr seconds
    ++ QUOTE_CHAR ++ x_direction ++ " " ++ floatRepr1 distance_feet ++ " ft"

/-- `calculate_grid_bearing` (lines 102-173) as a function of the
math-library azimuth `azimuth0` (see the section comment) and the
distance in meters. -/
def calculate_grid_bearing (azimuth0 distance_meters : ℚ) : String :=
  let azimuth := normalize_azimuth azimuth0
  let q := azimuth_quadrant azimuth
  bearingRender q.1 q.2.1 q.2.2 (meters_to_us_feet distance_meters)

/- ---------------------------------------------------------------------
`format_traversal` (lines 193-232).  Python dicts are embedded as
insertion-ordered association lists; assigning to an existing key keeps
its position and replaces its value, assigning a new key appends.
`sorted(set(sections))` is the ascending list of the distinct elements.
A key whose `split("-")` does not produce exactly two parts makes the
two-name unpacking of line 221 raise a `ValueError`, embedded as
`Except.error`.
--------------------------------------------------------------------- -/

/-- Splitting a character list at every occurrence of `sep`; the result
always has one more part than there are separator occurrences. -/
def splitOnChar (sep : Char) : List Char → List (List Char)
  | [] => [[]]
  | a :: t =>
    if a = sep then [] :: splitOnChar sep t
    else
      match splitOnChar sep t with
      | [] => [[a]]
      | h :: r => (a :: h) :: r

/-- Python `key.split("-")` (line 221): split at every hyphen; the empty
string yields `[""]`, a string with no hyphen yields the one-element list. -/
def pySplitDash (s : String) : List String :=
  (splitOnChar (Char.ofNat 45) s.data).map String.mk

/-- Ordered insertion of an integer into a strictly sorted list, skipping
an element that is already present. -/
def insertSorted (a : ℤ) : List ℤ → List ℤ
  | [] => [a]
  | b :: t => if a < b then a :: b :: t else if a = b then b :: t else b :: insertSorted a t

/-- `sorted(set(sections))` (line 220): the distinct elements in strictly
ascending order. -/
def dedupSortSections (sections : List ℤ) : List ℤ :=
  sections.foldr insertSorted []

/-- Python dict assignment `d[k] = v` on an association list: replace in
place if the key exists, otherwise append. -/
def dictInsert (k : String) (v : List ℤ) : List (String × List ℤ) → List (String × List ℤ)
  | [] => [(k, v)]
  | (k0, v0) :: t => if k0 = k then (k0, v) :: t else (k0, v0) :: dictInsert k v t

/-- The loop body of `format_traversal` over the remaining entries, with
`acc` the `formatted` dict built so far (lines 218-230). -/
def format_traversal_aux (acc : List (String × List ℤ)) :
    List (String × List ℤ) → Except String (List (String × List ℤ))
  | [] => .ok acc
  | (key, sections) :: rest =>
    let unique_sections := dedupSortSections sections
    match pySplitDash key with
    | [code, township_range] =>
      let base_meridian :=
        if code = "26" then "Salt Lake Base and Meridian"
        else if code = "30" then "Uintah Special Meridian"
        else "Unknown Meridian"
      format_traversal_aux (dictInsert (base_meridian ++ " " ++ township_range) unique_sections acc) rest
    | _ => .error "ValueError"

/-- `format_traversal(traversal_dict)` (lines 193-232). -/
def format_traversal (traversal_dict : List (String × List ℤ)) :
    Except String (List (String × List ℤ)) :=
  format_traversal_aux [] traversal_dict

/- ---------------------------------------------------------------------
`process_polyline` (lines 324-379).  A polyline is a list of paths, each
a list of points, in the polyline's native spatial reference.  The two
external geometry collaborators are parameters:
  * `proj`      — `project_point(point, polyline.spatialReference)`
                  (lines 31-53, delegating to arcpy);
  * `bearingOf` — the segment step of lines 369-374: building the
                  two-point `arcpy.Polyline`, taking its Euclidean
                  `length` and calling `calculate_grid_bearing` on it;
  * `traversal` — the result of `get_plss_traversal` (lines 285-321,
                  delegating to `arcpy.analysis.Intersect`).
The `starting`/`ending` fields are initialized to the PYTHON STRING `""`
(line 351) and are overwritten by `{lat, lon}` dicts while walking the
paths, hence the sum type `StartEnd`.
--------------------------------------------------------------------- -/

/-- The value of the `starting`/`ending` fields of a description record:
either still a plain string (the initial `""`) or a lat/lon pair. -/
inductive StartEnd where
  | str (s : String)
  | coords (lat lon : String)
deriving Repr, DecidableEq

/-- The description record built by `process_polyline` (line 351). -/
structure Description where
  traversal : List (String × List ℤ)
  starting : StartEnd
  ending : StartEnd
  bearings : List String
deriving Repr, DecidableEq

/-- The `{lat, lon}` dict stored for a projected point (lines 362/366). -/
def dmsCoords (projected : Point) : StartEnd :=
  .coords (decimal_degrees_to_dms projected).1 (decimal_degrees_to_dms projected).2

/-- The per-path loop of lines 357-377 for the indices `>= 1`:
`pathLen = len(path)`, `index` the current index, `last_point` the
previous vertex.  At the last index `ending` is overwritten; every
index appends one bearing and advances `last_point`. -/
def processTail (proj : Point → Point) (bearingOf : Point → Point → String) (pathLen : ℕ) :
    ℕ → Point → Description → List Point → Description
  | _, _, st, [] => st
  | index, last_point, st, point :: rest =>
    let st1 := if index = pathLen - 1 then { st with ending := dmsCoords (proj point) } else st
    let st2 := { st1 with bearings := st1.bearings ++ [bearingOf last_point point] }
    processTail proj bearingOf pathLen (index + 1) point st2 rest

/-- One iteration of `for path in polyline` (lines 355-377).  Index 0
overwrites `starting`, sets `last_point` and `continue`s; note that this
happens for EVERY path, not just the first one. -/
def processPath (proj : Point → Point) (bearingOf : Point → Point → String)
    (st : Description) (path : List Point) : Description :=
  match path with
  | [] => st
  | point :: rest =>
    let st1 := { st with starting := dmsCoords (proj point) }
    processTail proj bearingOf path.length 1 point st1 rest

/-- `process_polyline` (lines 324-379) with the external collaborators as
parameters (see the section comment). -/
def process_polyline (proj : Point → Point) (bearingOf : Point → Point → String)
    (traversal : List (String × List ℤ)) (polyline : List (List Point)) : Description :=
  polyline.foldl (processPath proj bearingOf)
    { traversal := traversal, starting := .str "", ending := .str "", bearings := [] }

/- ---------------------------------------------------------------------
`csv_has_header` (lines 382-400) and `save_description_to`
(lines 403-478).  The summary CSV target is a shared file, embedded as
`Option (List (List String))`: `none` is an absent file, `some rows` the
parsed rows of an existing file (`some []` an existing empty file, for
which `next(csv.reader(...))` raises `StopIteration`).  Subscripting the
initial string `""` with `'lat'` (line 436/437) raises a `TypeError`,
embedded as `Except.error`; it happens before any file is touched, so an
erring call produces no output at all.  The bearing detail file is the
returned `bearingsFile` string (platform `linesep` embedded as a
newline); the constant disclaimer file write (lines 476-478) carries no
claim-relevant state and is not modelled.
--------------------------------------------------------------------- -/

/-- The local `fieldnames` of `save_description_to` (line 449). -/
def FIELDNAMES : List String := ["id", "starting", "ending", "traversal"]

/-- `csv_has_header(csv_path, expected_fieldnames)` (lines 382-400):
the first row must exist and equal the expected names; an absent file
(`FileNotFoundError`) or an empty one (`StopIteration`) gives `False`. -/
def csv_has_header (csvFile : Option (List (List String))) (expected_fieldnames : List String) : Bool :=
  match csvFile with
  | none => false
  | some [] => false
  | some (first_row :: _) => first_row == expected_fieldnames

/-- `f"Latitude: {v['lat']} and Longitude: {v['lon']}"` (lines 436-437);
subscripting a string raises `TypeError`. -/
def renderLatLon : StartEnd → Except String String
  | .str _ => .error "TypeError"
  | .coords lat lon => .ok ("Latitude: " ++ lat ++ " and Longitude: " ++ lon)

/-- `f"{meridian_township}: Sections {sections_text}"` (lines 443-444). -/
def traversalLineText (entry : String × List ℤ) : String :=
  entry.1 ++ ": Sections " ++ String.intercalate ", " (entry.2.map intRepr)

/-- `f"{i}. {bearing}{linesep}"` joined over `enumerate(bearings, 1)`
(lines 472-474). -/
def numberLines : ℕ → List String → String
  | _, [] => ""
  | i, bearing :: rest => natRepr i ++ ". " ++ bearing ++ "\n" ++ numberLines (i + 1) rest

/-- The two files `save_description_to` produces for the claims: the new
row list of the summary CSV and the content of the bearing detail file. -/
structure SaveOutput where
  csv : List (List String)
  bearingsFile : String
deriving Repr, DecidableEq

/-- `save_description_to(description, unique_id, survey123, bearings)`
(lines 403-478) on the summary-file state `survey123`. -/
def save_description_to (description : Description) (unique_id : String)
    (survey123 : Option (List (List String))) : Except String SaveOutput :=
  match renderLatLon description.starting with
  | .error e => .error e
  | .ok starting_text =>
    match renderLatLon description.ending with
    | .error e => .error e
    | .ok ending_text =>
      match format_traversal description.traversal with
      | .error e => .error e
      | .ok formatted_traversal =>
        let traversal := String.intercalate " | " (formatted_traversal.map traversalLineText)
        let needs_header := ! csv_has_header survey123 FIELDNAMES
        let rows := survey123.getD []
        .ok { csv := rows ++ (if needs_header then [FIELDNAMES] else [])
                  ++ [[unique_id, starting_text, ending_text, traversal]],
              bearingsFile := numberLines 1 description.bearings }

/- ---------------------------------------------------------------------
Derived observers used to state the claims.
--------------------------------------------------------------------- -/

/-- Whether a fallible computation succeeded. -/
def exceptIsOk {ε α : Type} : Except ε α → Bool
  | .ok _ => true
  | .error _ => false

/-- The successful result of `format_traversal`, or `[]` after an error. -/
def exceptOkD (e : Except String (List (String × List ℤ))) : List (String × List ℤ) :=
  match e with
  | .ok l => l
  | .error _ => []

/-- Whether a `starting`/`ending` field already holds a lat/lon pair. -/
def isCoords : StartEnd → Bool
  | .str _ => false
  | .coords _ _ => true

/-- Every key of the raw traversal splits at hyphens into exactly two
parts, the precondition of the two-name unpacking of line 221. -/
def keysSplitTwo (traversal : List (String × List ℤ)) : Bool :=
  traversal.all fun p => (pySplitDash p.1).length == 2

/-- The text of a successful `renderLatLon`, or `""` after an error. -/
def okTextOr (e : Except String String) : String :=
  match e with
  | .ok s => s
  | .error _ => ""

/-- The `traversal` column text of a summary row (lines 439-446). -/
def renderTraversalText (traversal : List (String × List ℤ)) : String :=
  String.intercalate " | " ((exceptOkD (format_traversal traversal)).map traversalLineText)

/-- The summary data row `save_description_to` appends for a description
and a feature id (lines 460-467). -/
def renderRow (description : Description) (unique_id : String) : List String :=
  [unique_id, okTextOr (renderLatLon description.starting),
    okTextOr (renderLatLon description.ending), renderTraversalText description.traversal]

/- ---------------------------------------------------------------------
Generic lemmas about the Python-semantics helpers.
--------------------------------------------------------------------- -/

theorem pyInt_eq_floor (x : ℚ) (hx : 0 ≤ x) : pyInt x = ⌊x⌋ := by
  rw [pyInt, Int.tdiv_eq_ediv (by exact_mod_cast Rat.num_nonneg.mpr hx) (by positivity),
    Rat.floor_def]

theorem pyInt_intCast (k : ℤ) : pyInt (k : ℚ) = k := by
  simp [pyInt, Rat.num_intCast, Rat.den_intCast, Int.tdiv_one]

theorem pyRound_intCast (k : ℤ) : pyRound (k : ℚ) = k := by
  simp [pyRound, Int.floor_intCast]

theorem pyRound_nonneg (x : ℚ) (hx : 0 ≤ x) : 0 ≤ pyRound x := by
  have hf : (0 : ℤ) ≤ ⌊x⌋ := Int.floor_nonneg.mpr hx
  simp only [pyRound]
  split_ifs <;> omega

theorem pyRound_le_floor_add_one (x : ℚ) : pyRound x ≤ ⌊x⌋ + 1 := by
  simp only [pyRound]
  split_ifs <;> omega

theorem pyDivmod_snd_eq_fract (a b : ℚ) (hb : b ≠ 0) :
    (pyDivmod a b).2 = b * Int.fract (a / b) := by
  simp only [pyDivmod, Int.fract]
  rw [mul_sub, mul_div_cancel₀ a hb]

theorem pyDivmod_snd_nonneg (a b : ℚ) (hb : 0 < b) : 0 ≤ (pyDivmod a b).2 := by
  rw [pyDivmod_snd_eq_fract a b hb.ne.symm]
  exact mul_nonneg hb.le (Int.fract_nonneg _)

theorem pyDivmod_snd_lt (a b : ℚ) (hb : 0 < b) : (pyDivmod a b).2 < b := by
  rw [pyDivmod_snd_eq_fract a b hb.ne.symm]
  calc b * Int.fract (a / b) < b * 1 := by
        exact mul_lt_mul_of_pos_left (Int.fract_lt_one _) hb
    _ = b := mul_one b

theorem pyMod_eq_divmod_snd (a b : ℚ) : pyMod a b = (pyDivmod a b).2 := rfl

theorem pyMod_nonneg (a b : ℚ) (hb : 0 < b) : 0 ≤ pyMod a b := by
  rw [pyMod_eq_divmod_snd]; exact pyDivmod_snd_nonneg a b hb

theorem pyMod_lt (a b : ℚ) (hb : 0 < b) : pyMod a b < b := by
  rw [pyMod_eq_divmod_snd]; exact pyDivmod_snd_lt a b hb

theorem length_mk (l : List Char) : (String.mk l).length = l.length := rfl

theorem natDigitsAux_length_pos (fuel n : ℕ) : 0 < (natDigitsAux (fuel + 1) n).length := by
  unfold natDigitsAux
  split
  · simp
  · simp

theorem natDigitsAux_length_le :
    ∀ (fuel n k : ℕ), n < fuel → n < 10 ^ k → 1 ≤ k → (natDigitsAux fuel n).length ≤ k := by
  intro fuel
  induction fuel with
  | zero => intro n k h; omega
  | succ fuel ih =>
    intro n k hn hk hk1
    unfold natDigitsAux
    split
    · simpa using hk1
    · rename_i h10
      push_neg at h10
      have hk2 : 2 ≤ k := by
        by_contra hc
        push_neg at hc
        have hk1' : k = 1 := by omega
        subst hk1'
        simp only [pow_one] at hk
        omega
      have hdiv_fuel : n / 10 < fuel := by
        have h1 : n / 10 < n := Nat.div_lt_self (by omega) (by omega)
        omega
      have hdiv_pow : n / 10 < 10 ^ (k - 1) := by
        rw [Nat.div_lt_iff_lt_mul (by norm_num)]
        calc n < 10 ^ k := hk
          _ = 10 ^ (k - 1) * 10 := by
            rw [← pow_succ]
            congr 1
            omega
      have := ih (n / 10) (k - 1) hdiv_fuel hdiv_pow (by omega)
      rw [List.length_append]
      simp only [List.length_singleton]
      omega

theorem natDigitsAux_all_digit :
    ∀ (fuel n : ℕ), ∀ c ∈ natDigitsAux fuel n, c.isDigit = true := by
  have hd : ∀ m, m < 10 → (Nat.digitChar m).isDigit = true := by decide
  intro fuel
  induction fuel with
  | zero => intro n c hc; simp [natDigitsAux] at hc
  | succ fuel ih =>
    intro n c hc
    unfold natDigitsAux at hc
    split at hc
    · rename_i h10
      rw [List.mem_singleton] at hc
      exact hc ▸ hd n h10
    · rw [List.mem_append, List.mem_singleton] at hc
      rcases hc with hc | hc
      · exact ih _ c hc
      · exact hc ▸ hd _ (Nat.mod_lt _ (by omega))

theorem natRepr_length_pos (n : ℕ) : 0 < (natRepr n).length :=
  natDigitsAux_length_pos n n

theorem natRepr_length_le (n k : ℕ) (h : n < 10 ^ k) (hk : 1 ≤ k) :
    (natRepr n).length ≤ k :=
  natDigitsAux_length_le (n + 1) n k (by omega) h hk

theorem natRepr_all_digit (n : ℕ) : ∀ c ∈ (natRepr n).data, c.isDigit = true :=
  natDigitsAux_all_digit (n + 1) n

theorem padZeroLeft_of_le (width : ℕ) (s : String) (h : width ≤ s.length) :
    padZeroLeft width s = s := by
  unfold padZeroLeft
  rw [if_neg (by omega)]

theorem padZeroLeft_length (width : ℕ) (s : String) :
    (padZeroLeft width s).length = max width s.length := by
  unfold padZeroLeft
  split
  · rename_i h
    rw [String.length_append, length_mk, List.length_replicate]
    omega
  · rename_i h
    omega

theorem mem_insertSorted (a b : ℤ) (l : List ℤ) :
    b ∈ insertSorted a l ↔ b = a ∨ b ∈ l := by
  induction l with
  | nil => simp [insertSorted]
  | cons c t ih =>
    unfold insertSorted
    split_ifs with h1 h2
    · simp
    · subst h2
      simp only [List.mem_cons]
      tauto
    · simp only [List.mem_cons, ih]
      tauto

theorem sorted_insertSorted (a : ℤ) (l : List ℤ) (h : l.Sorted (· < ·)) :
    (insertSorted a l).Sorted (· < ·) := by
  induction l with
  | nil => simp [insertSorted]
  | cons b t ih =>
    rw [List.sorted_cons] at h
    obtain ⟨hb, ht⟩ := h
    unfold insertSorted
    split_ifs with h1 h2
    · rw [List.sorted_cons]
      refine ⟨?_, List.sorted_cons.mpr ⟨hb, ht⟩⟩
      intro x hx
      rcases List.mem_cons.mp hx with rfl | hx
      · exact h1
      · exact h1.trans (hb x hx)
    · exact List.sorted_cons.mpr ⟨hb, ht⟩
    · rw [List.sorted_cons]
      refine ⟨?_, ih ht⟩
      intro x hx
      rcases (mem_insertSorted a x t).mp hx with rfl | hx
      · omega
      · exact hb x hx

theorem sorted_dedupSortSections (l : List ℤ) :
    (dedupSortSections l).Sorted (· < ·) := by
  induction l with
  | nil => simp [dedupSortSections]
  | cons a t ih => exact sorted_insertSorted a _ ih

theorem mem_dedupSortSections (l : List ℤ) (x : ℤ) :
    x ∈ dedupSortSections l ↔ x ∈ l := by
  induction l with
  | nil => simp [dedupSortSections]
  | cons a t ih =>
    show x ∈ insertSorted a (dedupSortSections t) ↔ _
    rw [mem_insertSorted, ih]
    simp

theorem mem_dictInsert (k : String) (v : List ℤ) (l : List (String × List ℤ))
    (q : String × List ℤ) (hq : q ∈ dictInsert k v l) : q = (k, v) ∨ q ∈ l := by
  induction l with
  | nil => simpa [dictInsert] using hq
  | cons p t ih =>
    obtain ⟨k0, v0⟩ := p
    unfold dictInsert at hq
    split_ifs at hq with h1
    · subst h1
      rcases List.mem_cons.mp hq with rfl | hq
      · exact Or.inl rfl
      · exact Or.inr (List.mem_cons.mpr (Or.inr hq))
    · rcases List.mem_cons.mp hq with rfl | hq
      · exact Or.inr (List.mem_cons.mpr (Or.inl rfl))
      · rcases ih hq with h | h
        · exact Or.inl h
        · exact Or.inr (List.mem_cons.mpr (Or.inr h))

/- ---------------------------------------------------------------------
`format_traversal`: soundness of the accumulator loop.
--------------------------------------------------------------------- -/

theorem format_traversal_aux_ok (P : String × List ℤ → Prop) :
    ∀ (d acc : List (String × List ℤ)),
      (∀ p ∈ d, ∃ code township, pySplitDash p.1 = [code, township] ∧
        P ((if code = "26" then "Salt Lake Base and Meridian"
            else if code = "30" then "Uintah Special Meridian"
            else "Unknown Meridian") ++ " " ++ township, dedupSortSections p.2)) →
      (∀ q ∈ acc, P q) →
      ∃ out, format_traversal_aux acc d = .ok out ∧ ∀ q ∈ out, P q := by
  intro d
  induction d with
  | nil => exact fun acc _ hacc => ⟨acc, rfl, hacc⟩
  | cons p rest ih =>
    intro acc hd hacc
    obtain ⟨key, sections⟩ := p
    obtain ⟨code, township, hsplit, hP⟩ := hd (key, sections) (List.mem_cons_self _ _)
    have hstep : format_traversal_aux acc ((key, sections) :: rest) =
        format_traversal_aux
          (dictInsert ((if code = "26" then "Salt Lake Base and Meridian"
            else if code = "30" then "Uintah Special Meridian"
            else "Unknown Meridian") ++ " " ++ township) (dedupSortSections sections) acc)
          rest := by
      simp only [format_traversal_aux, hsplit]
    rw [hstep]
    refine ih _ (fun q hq => hd q (List.mem_cons_of_mem _ hq)) ?_
    intro q hq
    rcases mem_dictInsert _ _ _ _ hq with rfl | hq
    · exact hP
    · exact hacc q hq

theorem format_traversal_ok (d : List (String × List ℤ))
    (hd : ∀ p ∈ d, ∃ code township, pySplitDash p.1 = [code, township]) :
    ∃ out, format_traversal d = .ok out := by
  obtain ⟨out, hout, -⟩ := format_traversal_aux_ok (fun _ => True) d []
    (fun p hp => by obtain ⟨c, t, h⟩ := hd p hp; exact ⟨c, t, h, trivial⟩)
    (by intro q hq; cases hq)
  exact ⟨out, hout⟩

/- ---------------------------------------------------------------------
The claims.
--------------------------------------------------------------------- -/

/-- C9.  `format_traversal` is total exactly on inputs whose every key
splits at hyphens into two parts; a key with zero hyphens or more than one
hyphen makes the two-name unpacking raise a `ValueError`. -/
theorem C9_split_safety :
    (∀ d : List (String × List ℤ),
      (∀ p ∈ d, ∃ code township, pySplitDash p.1 = [code, township]) →
      exceptIsOk (format_traversal d) = true) ∧
    format_traversal [("26T01S R01W", [1])] = .error "ValueError" ∧
    format_traversal [("26-T01S-R01W", [1])] = .error "ValueError" := by
  refine ⟨?_, by rfl, by rfl⟩
  intro d hd
  obtain ⟨out, hout⟩ := format_traversal_ok d hd
  rw [hout]
  rfl

/-- Witness for C9 at a concrete well-formed input. -/
theorem C9_split_safety_witness :
    exceptIsOk (format_traversal [("30-T02N R03E", [15, 14])]) = true := by
  apply C9_split_safety.1
  intro p hp
  rw [List.mem_singleton] at hp
  subst hp
  exact ⟨"30", "T02N R03E", by decide⟩

/-- C5.  On inputs whose keys are `{meridianCode}-{townshipRangeLabel}`
composites, `format_traversal` succeeds, every output entry is the
expansion of some input entry (code 26 and 30 expanded by the lookup
table, anything else labelled Unknown Meridian) carrying the strictly
increasing list of that entry's distinct section numbers; including the
two concrete examples of the specification. -/
theorem C5_format_traversal :
    (∀ d : List (String × List ℤ),
      (∀ p ∈ d, ∃ code township, pySplitDash p.1 = [code, township]) →
      exceptIsOk (format_traversal d) = true ∧
        ∀ q ∈ exceptOkD (format_traversal d),
          q.2.Sorted (· < ·) ∧
          ∃ p ∈ d, ∃ code township, pySplitDash p.1 = [code, township] ∧
            q.1 = (if code = "26" then "Salt Lake Base and Meridian"
                   else if code = "30" then "Uintah Special Meridian"
                   else "Unknown Meridian") ++ " " ++ township ∧
            q.2 = dedupSortSections p.2 ∧ (∀ x : ℤ, x ∈ q.2 ↔ x ∈ p.2)) ∧
    format_traversal [("26-T01S R01W", [1, 2, 2, 3, 1])] =
      .ok [("Salt Lake Base and Meridian T01S R01W", [1, 2, 3])] ∧
    format_traversal [] = .ok [] := by
  refine ⟨?_, by rfl, rfl⟩
  intro d hd
  obtain ⟨out, hout, hP⟩ := format_traversal_aux_ok
    (fun q => q.2.Sorted (· < ·) ∧
      ∃ p ∈ d, ∃ code township, pySplitDash p.1 = [code, township] ∧
        q.1 = (if code = "26" then "Salt Lake Base and Meridian"
               else if code = "30" then "Uintah Special Meridian"
               else "Unknown Meridian") ++ " " ++ township ∧
        q.2 = dedupSortSections p.2 ∧ (∀ x : ℤ, x ∈ q.2 ↔ x ∈ p.2))
    d []
    (fun p hp => by
      obtain ⟨c, t, h⟩ := hd p hp
      exact ⟨c, t, h, sorted_dedupSortSections p.2,
        p, hp, c, t, h, rfl, rfl, fun x => mem_dedupSortSections p.2 x⟩)
    (by intro q hq; cases hq)
  constructor
  · unfold format_traversal
    rw [hout]
    rfl
  · unfold format_traversal
    rw [hout]
    exact hP

/-- Witness for C5 at a concrete input satisfying the key precondition. -/
theorem C5_format_traversal_witness :
    exceptIsOk (format_traversal [("99-X", [7, 8, 9])]) = true := by
  refine (C5_format_traversal.1 [("99-X", [7, 8, 9])] ?_).1
  intro p hp
  rw [List.mem_singleton] at hp
  subst hp
  exact ⟨"99", "X", by decide⟩

/-- C6.  `meters_to_us_feet` multiplies by 3937/1200 and rounds to one
decimal place; the three reference values hold, the result is a fixed
point of rounding to one decimal place, and negative input goes through
the same formula. -/
theorem C6_meters_to_us_feet :
    meters_to_us_feet 0 = 0 ∧
    meters_to_us_feet 100 = 328.1 ∧
    meters_to_us_feet 1 = 3.3 ∧
    meters_to_us_feet (-100) = -328.1 ∧
    ∀ meters : ℚ, pyRoundTo (meters_to_us_feet meters) 1 = meters_to_us_feet meters := by
  refine ⟨?_, ?_, ?_, ?_, ?_⟩
  · norm_num [meters_to_us_feet, pyRoundTo, pyRound]
  · norm_num [meters_to_us_feet, pyRoundTo, pyRound]
  · norm_num [meters_to_us_feet, pyRoundTo, pyRound]
  · norm_num [meters_to_us_feet, pyRoundTo, pyRound]
  · intro m
    unfold meters_to_us_feet pyRoundTo
    have h : ((pyRound (m * 3937 / 1200 * 10 ^ 1) : ℚ) / 10 ^ 1 * 10 ^ 1)
        = ((pyRound (m * 3937 / 1200 * 10 ^ 1) : ℤ) : ℚ) := by
      field_simp
    rw [h, pyRound_intCast]

/-- C4.  The azimuth (the degree value of `atan2(dx, dy)`, in [-180, 180])
is normalized into [0, 360) by `(azimuth + 360) % 360`, the quadrant chain
classifies the normalized azimuth exactly as the specification's table
says, the rendered bearing is built from the chosen quadrant data, and the
acute angle always lies between 0 and 90 degrees. -/
theorem C4_bearing_quadrants (azimuth0 distance_meters : ℚ)
    (_h1 : -180 ≤ azimuth0) (_h2 : azimuth0 ≤ 180) :
    0 ≤ normalize_azimuth azimuth0 ∧ normalize_azimuth azimuth0 < 360 ∧
    calculate_grid_bearing azimuth0 distance_meters =
      bearingRender (azimuth_quadrant (normalize_azimuth azimuth0)).1
        (azimuth_quadrant (normalize_azimuth azimuth0)).2.1
        (azimuth_quadrant (normalize_azimuth azimuth0)).2.2
        (meters_to_us_feet distance_meters) ∧
    (normalize_azimuth azimuth0 < 90 →
      azimuth_quadrant (normalize_azimuth azimuth0) = (normalize_azimuth azimuth0, "N", "E")) ∧
    (90 ≤ normalize_azimuth azimuth0 → normalize_azimuth azimuth0 < 180 →
      azimuth_quadrant (normalize_azimuth azimuth0) = (180 - normalize_azimuth azimuth0, "S", "E")) ∧
    (180 ≤ normalize_azimuth azimuth0 → normalize_azimuth azimuth0 < 270 →
      azimuth_quadrant (normalize_azimuth azimuth0) = (normalize_azimuth azimuth0 - 180, "S", "W")) ∧
    (270 ≤ normalize_azimuth azimuth0 →
      azimuth_quadrant (normalize_azimuth azimuth0) = (360 - normalize_azimuth azimuth0, "N", "W")) ∧
    0 ≤ (azimuth_quadrant (normalize_azimuth azimuth0)).1 ∧
    (azimuth_quadrant (normalize_azimuth azimuth0)).1 ≤ 90 := by
  have hz1 : 0 ≤ normalize_azimuth azimuth0 := pyMod_nonneg _ _ (by norm_num)
  have hz2 : normalize_azimuth azimuth0 < 360 := pyMod_lt _ _ (by norm_num)
  set az := normalize_azimuth azimuth0 with haz
  refine ⟨hz1, hz2, rfl, ?_, ?_, ?_, ?_, ?_⟩
  · intro h
    rw [azimuth_quadrant, if_pos ⟨hz1, h⟩]
  · intro ha hb
    rw [azimuth_quadrant, if_neg (by rintro ⟨-, h⟩; linarith), if_pos ⟨ha, hb⟩]
  · intro ha hb
    rw [azimuth_quadrant, if_neg (by rintro ⟨-, h⟩; linarith),
      if_neg (by rintro ⟨-, h⟩; linarith), if_pos ⟨ha, hb⟩]
  · intro ha
    rw [azimuth_quadrant, if_neg (by rintro ⟨-, h⟩; linarith),
      if_neg (by rintro ⟨-, h⟩; linarith), if_neg (by rintro ⟨-, h⟩; linarith)]
  · unfold azimuth_quadrant
    split_ifs with hq1 hq2 hq3
    · exact ⟨hq1.1, by linarith [hq1.2]⟩
    · simp only
      constructor <;> [linarith [hq2.2]; linarith [hq2.1]]
    · simp only
      constructor <;> [linarith [hq3.1]; linarith [hq3.2]]
    · push_neg at hq1 hq2 hq3
      have h270 : 270 ≤ az := hq3 (hq2 (hq1 hz1))
      simp only
      constructor <;> linarith

/-- Witness for C4 at azimuth 45 and a 100 meter distance. -/
theorem C4_bearing_quadrants_witness :
    (-180 : ℚ) ≤ 45 ∧ (45 : ℚ) ≤ 180 ∧
    (0 ≤ normalize_azimuth 45 ∧ normalize_azimuth 45 < 360 ∧
      calculate_grid_bearing 45 100 =
        bearingRender (azimuth_quadrant (normalize_azimuth 45)).1
          (azimuth_quadrant (normalize_azimuth 45)).2.1
          (azimuth_quadrant (normalize_azimuth 45)).2.2
          (meters_to_us_feet 100) ∧
      (normalize_azimuth 45 < 90 →
        azimuth_quadrant (normalize_azimuth 45) = (normalize_azimuth 45, "N", "E")) ∧
      (90 ≤ normalize_azimuth 45 → normalize_azimuth 45 < 180 →
        azimuth_quadrant (normalize_azimuth 45) = (180 - normalize_azimuth 45, "S", "E")) ∧
      (180 ≤ normalize_azimuth 45 → normalize_azimuth 45 < 270 →
        azimuth_quadrant (normalize_azimuth 45) = (normalize_azimuth 45 - 180, "S", "W")) ∧
      (270 ≤ normalize_azimuth 45 →
        azimuth_quadrant (normalize_azimuth 45) = (360 - normalize_azimuth 45, "N", "W")) ∧
      0 ≤ (azimuth_quadrant (normalize_azimuth 45)).1 ∧
      (azimuth_quadrant (normalize_azimuth 45)).1 ≤ 90) :=
  ⟨by norm_num, by norm_num, C4_bearing_quadrants 45 100 (by norm_num) (by norm_num)⟩

/-- C7.  The bearing DMS output is emitted without carrying: an azimuth of
89.9999 degrees renders a seconds field of 60 (no carry into minutes or
degrees), and an azimuth of exactly 90 degrees renders the angle 90 as-is. -/
theorem C7_no_carry :
    calculate_grid_bearing (899999 / 10000) 0 = "N89°59\x2760\x22E 0.0 ft" ∧
    calculate_grid_bearing 90 100 = "S90°0\x270\x22E 328.1 ft" := by
  constructor
  · have hn : normalize_azimuth (899999 / 10000) = 899999 / 10000 := by
      norm_num [normalize_azimuth, pyMod]
    have hq : azimuth_quadrant (899999 / 10000) = (899999 / 10000, "N", "E") := by
      rw [azimuth_quadrant, if_pos (by norm_num)]
    have hd : pyInt (899999 / 10000 : ℚ) = 89 := by
      rw [pyInt_eq_floor _ (by norm_num)]
      norm_num
    have hm : pyInt (((899999 / 10000 : ℚ) - (89 : ℤ)) * 60) = 59 := by
      rw [pyInt_eq_floor _ (by norm_num)]
      norm_num
    have hs : pyRound (((((899999 / 10000 : ℚ) - (89 : ℤ)) * 60) - (59 : ℤ)) * 60) = 60 := by
      norm_num [pyRound]
    have hf : meters_to_us_feet 0 = 0 := by
      norm_num [meters_to_us_feet, pyRoundTo, pyRound]
    have hf0 : pyRound ((0 : ℚ) * 10) = 0 := by
      norm_num [pyRound]
    rw [calculate_grid_bearing]
    rw [hn, hq, hf]
    rw [bearingRender]
    simp only [hd]
    rw [hm, hs, floatRepr1]
    rw [hf0]
    decide
  · have hn : normalize_azimuth 90 = 90 := by
      norm_num [normalize_azimuth, pyMod]
    have hq : azimuth_quadrant 90 = (90, "S", "E") := by
      rw [azimuth_quadrant, if_neg (by norm_num), if_pos (by norm_num)]
      norm_num
    have hd : pyInt (90 : ℚ) = 90 := by
      rw [pyInt_eq_floor _ (by norm_num)]
      norm_num
    have hm : pyInt (((90 : ℚ) - (90 : ℤ)) * 60) = 0 := by
      rw [pyInt_eq_floor _ (by norm_num)]
      norm_num
    have hs : pyRound (((((90 : ℚ) - (90 : ℤ)) * 60) - (0 : ℤ)) * 60) = 0 := by
      norm_num [pyRound]
    have hf : meters_to_us_feet 100 = 3281 / 10 := by
      norm_num [meters_to_us_feet, pyRoundTo, pyRound]
    have hf0 : pyRound ((3281 / 10 : ℚ) * 10) = 3281 := by
      norm_num [pyRound]
    rw [calculate_grid_bearing]
    rw [hn, hq, hf]
    rw [bearingRender]
    simp only [hd]
    rw [hm, hs, floatRepr1]
    rw [hf0]
    decide

/- ---------------------------------------------------------------------
C1: persistence of summary rows.
--------------------------------------------------------------------- -/

theorem list_eq_pair_of_length_two {α : Type} (l : List α) (h : l.length = 2) :
    ∃ a b, l = [a, b] := by
  match l, h with
  | [a, b], _ => exact ⟨a, b, rfl⟩

theorem keysSplitTwo_spec (traversal : List (String × List ℤ))
    (h : keysSplitTwo traversal = true) :
    ∀ p ∈ traversal, ∃ code township, pySplitDash p.1 = [code, township] := by
  intro p hp
  have := (List.all_eq_true.mp h) p hp
  exact list_eq_pair_of_length_two _ (eq_of_beq this)

theorem isCoords_spec (se : StartEnd) (h : isCoords se = true) :
    ∃ lat lon, se = .coords lat lon := by
  cases se with
  | str s => simp [isCoords] at h
  | coords lat lon => exact ⟨lat, lon, rfl⟩

/-- What one well-formed `save_description_to` call does to the summary
target: the pre-existing rows, then a header exactly when the current
first row check failed, then the rendered data row. -/
theorem save_description_to_ok (d : Description) (unique_id : String)
    (f : Option (List (List String)))
    (hs : isCoords d.starting = true) (he : isCoords d.ending = true)
    (ht : keysSplitTwo d.traversal = true) :
    save_description_to d unique_id f =
      .ok ⟨(f.getD []) ++ (if csv_has_header f FIELDNAMES then [] else [FIELDNAMES])
            ++ [renderRow d unique_id],
          numberLines 1 d.bearings⟩ := by
  obtain ⟨lat1, lon1, hst⟩ := isCoords_spec _ hs
  obtain ⟨lat2, lon2, hend⟩ := isCoords_spec _ he
  obtain ⟨out, hout⟩ := format_traversal_ok d.traversal (keysSplitTwo_spec _ ht)
  unfold save_description_to renderRow renderTraversalText okTextOr exceptOkD
  simp only [hst, hend, hout, renderLatLon]
  cases hh : csv_has_header f FIELDNAMES <;> simp [hh]

/-- A `save_description_to` call on a record whose `starting` is still a
plain string fails with a `TypeError` before producing any output. -/
theorem save_description_to_error_of_str (d : Description) (s : String)
    (hd : d.starting = .str s) (unique_id : String) (f : Option (List (List String))) :
    save_description_to d unique_id f = .error "TypeError" := by
  unfold save_description_to
  simp only [hd, renderLatLon]

/-- C1 counterexample data: a record with an empty raw traversal. -/
def cexDescription : Description :=
  { traversal := [], starting := .coords "A" "B", ending := .coords "C" "D", bearings := [] }

/-- The summary row `cexDescription` produces for a feature id. -/
def cexRow (unique_id : String) : List String :=
  [unique_id, "Latitude: A and Longitude: B", "Latitude: C and Longitude: D", ""]

/-- C1 counterexample.  Against a target whose pre-existing first row is
not the header, every append writes its own header: after two persist
calls the file holds TWO header lines, not one, refuting the claimed
convergence of the non-matching-first-row case. -/
theorem C1_counterexample :
    save_description_to cexDescription "R1" (some [["x"]]) =
      .ok ⟨[["x"], FIELDNAMES, cexRow "R1"], ""⟩ ∧
    save_description_to cexDescription "R2" (some [["x"], FIELDNAMES, cexRow "R1"]) =
      .ok ⟨[["x"], FIELDNAMES, cexRow "R1", FIELDNAMES, cexRow "R2"], ""⟩ ∧
    ([["x"], FIELDNAMES, cexRow "R1", FIELDNAMES, cexRow "R2"].count FIELDNAMES) = 2 := by
  refine ⟨by rfl, by rfl, by rfl⟩

/-- C1 as amended.  For a target that was absent or pre-existed empty,
two persist calls converge to exactly one header row followed by the two
data rows in call order (and data rows are never header rows); but for a
target pre-existing with a non-matching first row, EVERY persist call
appends a header before its data row, so two calls leave two header
lines after the pre-existing content. -/
theorem C1_amended (d1 d2 : Description) (id1 id2 : String)
    (hs1 : isCoords d1.starting = true) (he1 : isCoords d1.ending = true)
    (ht1 : keysSplitTwo d1.traversal = true)
    (hs2 : isCoords d2.starting = true) (he2 : isCoords d2.ending = true)
    (ht2 : keysSplitTwo d2.traversal = true)
    (r : List String) (rest : List (List String)) (hr : r ≠ FIELDNAMES) :
    (save_description_to d1 id1 none =
        .ok ⟨[FIELDNAMES, renderRow d1 id1], numberLines 1 d1.bearings⟩ ∧
      save_description_to d2 id2 (some [FIELDNAMES, renderRow d1 id1]) =
        .ok ⟨[FIELDNAMES, renderRow d1 id1, renderRow d2 id2], numberLines 1 d2.bearings⟩) ∧
    (save_description_to d1 id1 (some []) =
        .ok ⟨[FIELDNAMES, renderRow d1 id1], numberLines 1 d1.bearings⟩) ∧
    (renderRow d1 id1 ≠ FIELDNAMES ∧ renderRow d2 id2 ≠ FIELDNAMES) ∧
    (save_description_to d1 id1 (some (r :: rest)) =
        .ok ⟨(r :: rest) ++ [FIELDNAMES, renderRow d1 id1], numberLines 1 d1.bearings⟩ ∧
      save_description_to d2 id2 (some ((r :: rest) ++ [FIELDNAMES, renderRow d1 id1])) =
        .ok ⟨(r :: rest) ++ [FIELDNAMES, renderRow d1 id1, FIELDNAMES, renderRow d2 id2],
            numberLines 1 d2.bearings⟩) := by
  have hrow : ∀ (d : Description) (i : String), isCoords d.starting = true →
      renderRow d i ≠ FIELDNAMES := by
    intro d i hsd hcontra
    obtain ⟨lat, lon, hst⟩ := isCoords_spec _ hsd
    have h1 : okTextOr (renderLatLon d.starting) = "starting" := by
      have := congrArg (fun l => l.get? 1) hcontra
      simpa [renderRow, FIELDNAMES] using this
    rw [hst] at h1
    have h2 := congrArg String.length h1
    simp only [okTextOr, renderLatLon, String.length_append] at h2
    have : "Latitude: ".length + lat.length + " and Longitude: ".length + lon.length
        = "starting".length := by simpa using h2
    have hA : "Latitude: ".length = 10 := rfl
    have hB : " and Longitude: ".length = 16 := rfl
    have hC : "starting".length = 8 := rfl
    omega
  have hn : csv_has_header none FIELDNAMES = false := rfl
  have he : csv_has_header (some []) FIELDNAMES = false := rfl
  have hh : csv_has_header (some (FIELDNAMES :: [renderRow d1 id1])) FIELDNAMES = true := by
    simp [csv_has_header]
  have hnm : ∀ tail : List (List String), csv_has_header (some (r :: tail)) FIELDNAMES = false := by
    intro tail
    simp only [csv_has_header]
    exact beq_eq_false_iff_ne.mpr hr
  refine ⟨⟨?_, ?_⟩, ?_, ⟨hrow d1 id1 hs1, hrow d2 id2 hs2⟩, ?_, ?_⟩
  · rw [save_description_to_ok d1 id1 none hs1 he1 ht1, hn]
    rfl
  · rw [save_description_to_ok d2 id2 _ hs2 he2 ht2, hh]
    rfl
  · rw [save_description_to_ok d1 id1 _ hs1 he1 ht1, he]
    rfl
  · rw [save_description_to_ok d1 id1 _ hs1 he1 ht1, hnm]
    simp
  · rw [save_description_to_ok d2 id2 _ hs2 he2 ht2, List.cons_append, hnm]
    simp

/-- Witness data for the C1 theorem. -/
def wDescription1 : Description :=
  { traversal := [("26-T01S R01W", [1, 2])], starting := .coords "A" "B",
    ending := .coords "C" "D", bearings := ["b1"] }

/-- Second witness record for the C1 theorem. -/
def wDescription2 : Description :=
  { traversal := [], starting := .coords "E" "F", ending := .coords "G" "H", bearings := [] }

/-- Witness for C1 as amended, at two concrete records against an absent
target. -/
theorem C1_amended_witness :
    save_description_to wDescription1 "R1" none =
      .ok ⟨[FIELDNAMES, renderRow wDescription1 "R1"], numberLines 1 wDescription1.bearings⟩ :=
  (C1_amended wDescription1 wDescription2 "R1" "R2" (by rfl) (by rfl) (by rfl)
    (by rfl) (by rfl) (by rfl) ["x"] [] (by decide)).1.1

/- ---------------------------------------------------------------------
C3 / C8 / C10: the per-path walk of `process_polyline`.
--------------------------------------------------------------------- -/

theorem getLastI_cons_of_ne_nil {α : Type} [Inhabited α] (a : α) (l : List α) (h : l ≠ []) :
    (a :: l).getLastI = l.getLastI := by
  cases l with
  | nil => exact absurd rfl h
  | cons b t =>
    rw [List.getLastI_eq_getLast?, List.getLastI_eq_getLast?, List.getLast?_cons_cons]

theorem processTail_starting (proj : Point → Point) (bearingOf : Point → Point → String)
    (pathLen : ℕ) (l : List Point) :
    ∀ (index : ℕ) (last_point : Point) (st : Description),
      (processTail proj bearingOf pathLen index last_point st l).starting = st.starting := by
  induction l with
  | nil => intros; rfl
  | cons p rest ih =>
    intro index last_point st
    simp only [processTail]
    rw [ih]
    split <;> rfl

theorem processTail_ending (proj : Point → Point) (bearingOf : Point → Point → String)
    (pathLen : ℕ) (l : List Point) :
    ∀ (index : ℕ) (last_point : Point) (st : Description),
      l ≠ [] → index + l.length = pathLen →
      (processTail proj bearingOf pathLen index last_point st l).ending =
        dmsCoords (proj l.getLastI) := by
  induction l with
  | nil => intro _ _ _ h; exact absurd rfl h
  | cons p rest ih =>
    intro index last_point st _ hlen
    simp only [List.length_cons, List.length_nil] at hlen
    by_cases hrest : rest = []
    · subst hrest
      simp only [List.length_nil] at hlen
      simp only [processTail]
      rw [if_pos (by omega : index = pathLen - 1)]
      rfl
    · have hrl : 1 ≤ rest.length := List.length_pos.mpr hrest
      simp only [processTail]
      rw [if_neg (by omega : ¬ index = pathLen - 1)]
      rw [ih (index + 1) p _ hrest (by omega)]
      rw [getLastI_cons_of_ne_nil p rest hrest]

theorem processPath_starting (proj : Point → Point) (bearingOf : Point → Point → String)
    (st : Description) (path : List Point) (h : path ≠ []) :
    (processPath proj bearingOf st path).starting = dmsCoords (proj path.headI) := by
  cases path with
  | nil => exact absurd rfl h
  | cons p rest =>
    simp only [processPath]
    rw [processTail_starting]
    rfl

theorem processPath_ending (proj : Point → Point) (bearingOf : Point → Point → String)
    (st : Description) (path : List Point) (h : 2 ≤ path.length) :
    (processPath proj bearingOf st path).ending = dmsCoords (proj path.getLastI) := by
  cases path with
  | nil => simp at h
  | cons p rest =>
    have hrest : rest ≠ [] := by
      intro hc
      subst hc
      simp at h
    simp only [processPath]
    rw [processTail_ending proj bearingOf _ rest 1 p _ hrest (by simp [Nat.add_comm])]
    rw [getLastI_cons_of_ne_nil p rest hrest]

theorem processPath_bearings_short (proj : Point → Point) (bearingOf : Point → Point → String)
    (st : Description) (path : List Point) (h : path.length < 2) :
    (processPath proj bearingOf st path).bearings = st.bearings := by
  match path, h with
  | [], _ => rfl
  | [p], _ => rfl

theorem foldl_processPath_bearings (proj : Point → Point) (bearingOf : Point → Point → String)
    (pl : List (List Point)) :
    ∀ st : Description, (∀ path ∈ pl, path.length < 2) →
      (pl.foldl (processPath proj bearingOf) st).bearings = st.bearings := by
  induction pl with
  | nil => intros; rfl
  | cons path rest ih =>
    intro st h
    simp only [List.foldl_cons]
    rw [ih _ (fun q hq => h q (List.mem_cons_of_mem _ hq)),
      processPath_bearings_short proj bearingOf st path (h path (List.mem_cons_self _ _))]

theorem foldl_processPath_last (proj : Point → Point) (bearingOf : Point → Point → String)
    (pl : List (List Point)) :
    ∀ st : Description, pl ≠ [] → (∀ path ∈ pl, 2 ≤ path.length) →
      (pl.foldl (processPath proj bearingOf) st).starting =
        dmsCoords (proj pl.getLastI.headI) ∧
      (pl.foldl (processPath proj bearingOf) st).ending =
        dmsCoords (proj pl.getLastI.getLastI) := by
  induction pl with
  | nil => intro _ h; exact absurd rfl h
  | cons path rest ih =>
    intro st _ h2
    by_cases hrest : rest = []
    · subst hrest
      simp only [List.foldl_cons, List.foldl_nil]
      have hp : 2 ≤ path.length := h2 path (List.mem_cons_self _ _)
      have hne : path ≠ [] := by
        intro hc
        subst hc
        simp at hp
      exact ⟨processPath_starting proj bearingOf st path hne,
        processPath_ending proj bearingOf st path hp⟩
    · simp only [List.foldl_cons]
      have h := ih (processPath proj bearingOf st path) hrest
        (fun q hq => h2 q (List.mem_cons_of_mem _ hq))
      rwa [getLastI_cons_of_ne_nil path rest hrest]

theorem foldl_processPath_all_empty (proj : Point → Point) (bearingOf : Point → Point → String)
    (pl : List (List Point)) :
    ∀ st : Description, (∀ path ∈ pl, path = []) →
      pl.foldl (processPath proj bearingOf) st = st := by
  induction pl with
  | nil => intros; rfl
  | cons path rest ih =>
    intro st h
    have hp : path = [] := h path (List.mem_cons_self _ _)
    subst hp
    simp only [List.foldl_cons]
    exact ih st (fun q hq => h q (List.mem_cons_of_mem _ hq))

/-- C8.  A polyline with no paths, or whose every path has fewer than two
vertices, is processed without error (the walk is total) and leaves
`bearings` empty. -/
theorem C8_degenerate_geometry (proj : Point → Point) (bearingOf : Point → Point → String)
    (traversal : List (String × List ℤ)) (polyline : List (List Point))
    (h : ∀ path ∈ polyline, path.length < 2) :
    (process_polyline proj bearingOf traversal polyline).bearings = [] :=
  foldl_processPath_bearings proj bearingOf polyline _ h

/-- Witness for C8 at a polyline made of an empty path and a one-vertex
path. -/
theorem C8_degenerate_geometry_witness :
    (process_polyline id (fun _ _ => "") [] [[], [⟨1, 2⟩]]).bearings = [] := by
  apply C8_degenerate_geometry
  intro path hp
  rcases List.mem_cons.mp hp with rfl | hp
  · simp
  · rw [List.mem_singleton] at hp
    subst hp
    simp

/-- C3 as amended.  `starting` is overwritten at index 0 of EVERY path
(not kept from the first path), so for a polyline whose paths all have at
least two vertices, `starting` is the DMS pair of the LAST path's first
vertex, and `ending` the DMS pair of the last path's terminal vertex
(each path's terminal vertex overwrites `ending`, so the last path
wins). -/
theorem C3_amended (proj : Point → Point) (bearingOf : Point → Point → String)
    (traversal : List (String × List ℤ)) (polyline : List (List Point))
    (hne : polyline ≠ []) (h2 : ∀ path ∈ polyline, 2 ≤ path.length) :
    (process_polyline proj bearingOf traversal polyline).starting =
      dmsCoords (proj polyline.getLastI.headI) ∧
    (process_polyline proj bearingOf traversal polyline).ending =
      dmsCoords (proj polyline.getLastI.getLastI) :=
  foldl_processPath_last proj bearingOf polyline _ hne h2

/-- Witness for C3 as amended, at a one-path polyline. -/
theorem C3_amended_witness :
    (process_polyline id (fun _ _ => "") [] [[⟨0, 0⟩, ⟨1, 0⟩]]).starting =
      dmsCoords (id ([[(⟨0, 0⟩ : Point), ⟨1, 0⟩]] : List (List Point)).getLastI.headI) ∧
    (process_polyline id (fun _ _ => "") [] [[⟨0, 0⟩, ⟨1, 0⟩]]).ending =
      dmsCoords (id ([[(⟨0, 0⟩ : Point), ⟨1, 0⟩]] : List (List Point)).getLastI.getLastI) := by
  apply C3_amended
  · intro hc
    cases hc
  · intro path hp
    rw [List.mem_singleton] at hp
    subst hp
    simp

/-- C10 as amended.  `starting` is initialized to the Python string `""`;
it keeps that value only when every path of the polyline is empty (a
one-vertex path already overwrites it), and passing such a record to
`save_description_to` raises a `TypeError` while rendering the starting
text, before any output is produced. -/
theorem C10_amended (proj : Point → Point) (bearingOf : Point → Point → String)
    (traversal : List (String × List ℤ)) (polyline : List (List Point))
    (h : ∀ path ∈ polyline, path = []) :
    (process_polyline proj bearingOf traversal polyline).starting = .str "" ∧
    ∀ (unique_id : String) (survey123 : Option (List (List String))),
      save_description_to (process_polyline proj bearingOf traversal polyline)
        unique_id survey123 = .error "TypeError" := by
  have hst : (process_polyline proj bearingOf traversal polyline).starting = .str "" := by
    unfold process_polyline
    rw [foldl_processPath_all_empty proj bearingOf polyline _ h]
  exact ⟨hst, fun unique_id survey123 =>
    save_description_to_error_of_str _ _ hst unique_id survey123⟩

/-- Witness for C10 as amended, at a polyline of two empty paths. -/
theorem C10_amended_witness :
    (process_polyline id (fun _ _ => "") [] [[], []]).starting = .str "" ∧
    save_description_to (process_polyline id (fun _ _ => "") [] [[], []]) "R1" none =
      .error "TypeError" := by
  have h := C10_amended id (fun _ _ => "") [] [[], []] (by
    intro path hp
    rcases List.mem_cons.mp hp with rfl | hp
    · rfl
    · rw [List.mem_singleton] at hp
      exact hp)
  exact ⟨h.1, h.2 "R1" none⟩

/- ---------------------------------------------------------------------
Evaluating `decimal_degrees_to_dms` at concrete coordinates: the floor
computations are discharged by `norm_num`, the remaining digit rendering
by kernel reduction.
--------------------------------------------------------------------- -/

theorem dms_degrees_eq (v : ℚ) :
    dms_degrees v = ⌊((⌊|v| * 3600 / 60⌋ : ℚ)) / 60⌋ := by
  rw [dms_degrees, dms_divmod2, dms_divmod1]
  simp only [pyDivmod]
  exact pyInt_intCast _

theorem dms_minutes_eq (v : ℚ) :
    dms_minutes v = ⌊|v| * 3600 / 60⌋ - 60 * ⌊((⌊|v| * 3600 / 60⌋ : ℚ)) / 60⌋ := by
  rw [dms_minutes, dms_divmod2, dms_divmod1]
  simp only [pyDivmod]
  rw [show ((⌊|v| * 3600 / 60⌋ : ℚ) - 60 * ((⌊((⌊|v| * 3600 / 60⌋ : ℚ)) / 60⌋ : ℤ) : ℚ))
      = ((⌊|v| * 3600 / 60⌋ - 60 * ⌊((⌊|v| * 3600 / 60⌋ : ℚ)) / 60⌋ : ℤ) : ℚ) by
    push_cast
    ring]
  exact pyInt_intCast _

theorem dms_seconds_eq (v : ℚ) :
    dms_seconds v = |v| * 3600 - 60 * (⌊|v| * 3600 / 60⌋ : ℚ) := rfl

theorem dmsAxis_eval (v : ℚ) (posDir negDir : String) (d m n5 : ℤ)
    (hd : dms_degrees v = d) (hm : dms_minutes v = m)
    (hn : pyRound (dms_seconds v * 10 ^ 5) = n5) (hv : 0 ≤ v) :
    dmsAxis v posDir negDir =
      intRepr d ++ "°" ++ padZeroLeft 2 (intRepr m) ++ "\x27"
        ++ padZeroLeft 2 ((if n5 < 0 then "-" else "")
            ++ natRepr (n5.natAbs / 10 ^ 5) ++ "." ++ padZeroLeft 5 (natRepr (n5.natAbs % 10 ^ 5)))
        ++ QUOTE_CHAR ++ posDir := by
  rw [dmsAxis, hd, hm, if_pos hv]
  unfold formatFloat formatFixed
  rw [hn]

theorem dmsAxis_zero_N : dmsAxis 0 "N" "S" = "0°00\x270.00000\x22N" := by
  have hd : dms_degrees (0 : ℚ) = 0 := by
    rw [dms_degrees_eq, abs_zero]
    norm_num
  have hm : dms_minutes (0 : ℚ) = 0 := by
    rw [dms_minutes_eq, abs_zero]
    norm_num
  have hn : pyRound (dms_seconds (0 : ℚ) * 10 ^ 5) = 0 := by
    rw [dms_seconds_eq, abs_zero]
    norm_num [pyRound]
  rw [dmsAxis_eval 0 "N" "S" 0 0 0 hd hm hn le_rfl]
  decide

theorem dmsAxis_zero_E : dmsAxis 0 "E" "W" = "0°00\x270.00000\x22E" := by
  have hd : dms_degrees (0 : ℚ) = 0 := by
    rw [dms_degrees_eq, abs_zero]
    norm_num
  have hm : dms_minutes (0 : ℚ) = 0 := by
    rw [dms_minutes_eq, abs_zero]
    norm_num
  have hn : pyRound (dms_seconds (0 : ℚ) * 10 ^ 5) = 0 := by
    rw [dms_seconds_eq, abs_zero]
    norm_num [pyRound]
  rw [dmsAxis_eval 0 "E" "W" 0 0 0 hd hm hn le_rfl]
  decide

theorem dmsAxis_two_E : dmsAxis 2 "E" "W" = "2°00\x270.00000\x22E" := by
  have ha : |(2 : ℚ)| = 2 := abs_of_nonneg (by norm_num)
  have hd : dms_degrees (2 : ℚ) = 2 := by
    rw [dms_degrees_eq, ha]
    norm_num
  have hm : dms_minutes (2 : ℚ) = 0 := by
    rw [dms_minutes_eq, ha]
    norm_num
  have hn : pyRound (dms_seconds (2 : ℚ) * 10 ^ 5) = 0 := by
    rw [dms_seconds_eq, ha]
    norm_num [pyRound]
  rw [dmsAxis_eval 2 "E" "W" 2 0 0 hd hm hn (by norm_num)]
  decide

/-- C3 counterexample.  For the two-path polyline below, the first vertex
of the polyline's FIRST path is the origin, whose DMS pair is
`("0°00\x270.00000\x22N", "0°00\x270.00000\x22E")`; but the record's `starting` is
the DMS pair of the LAST path's first vertex (longitude 2°), so the claim
"starting = first vertex of the first path" fails. -/
theorem C3_counterexample :
    (process_polyline id (fun _ _ => "") [] [[⟨0, 0⟩, ⟨1, 0⟩], [⟨2, 0⟩, ⟨3, 0⟩]]).starting =
      .coords "0°00\x270.00000\x22N" "2°00\x270.00000\x22E" ∧
    decimal_degrees_to_dms ⟨0, 0⟩ = ("0°00\x270.00000\x22N", "0°00\x270.00000\x22E") ∧
    ("2°00\x270.00000\x22E" : String) ≠ "0°00\x270.00000\x22E" := by
  refine ⟨?_, ?_, by decide⟩
  · show StartEnd.coords (dmsAxis 0 "N" "S") (dmsAxis 2 "E" "W") = _
    rw [dmsAxis_zero_N, dmsAxis_two_E]
  · show (dmsAxis 0 "N" "S", dmsAxis 0 "E" "W") = _
    rw [dmsAxis_zero_N, dmsAxis_zero_E]

/-- C10 counterexample.  A polyline consisting of one single-vertex path
has no path with two or more vertices, yet the returned record's
`starting` is a lat/lon pair, not the initial string `""`: index 0 of any
non-empty path already overwrites `starting`. -/
theorem C10_counterexample :
    (process_polyline id (fun _ _ => "") [] [[⟨0, 0⟩]]).starting =
      .coords "0°00\x270.00000\x22N" "0°00\x270.00000\x22E" ∧
    (process_polyline id (fun _ _ => "") [] [[⟨0, 0⟩]]).bearings = [] ∧
    StartEnd.coords "0°00\x270.00000\x22N" "0°00\x270.00000\x22E" ≠ .str "" := by
  refine ⟨?_, rfl, by decide⟩
  show StartEnd.coords (dmsAxis 0 "N" "S") (dmsAxis 0 "E" "W") = _
  rw [dmsAxis_zero_N, dmsAxis_zero_E]

/-- C2 counterexample.  At latitude 8539/6000000 degrees the seconds
value is exactly 5.1234; the rendered seconds field is `5.12340` — the
format's minimum width of 2 is already exceeded, so the single-digit
whole-seconds value is NOT zero-padded to `05.12340` as claimed. -/
theorem C2_counterexample :
    decimal_degrees_to_dms ⟨0, 8539 / 6000000⟩ =
      ("0°00\x275.12340\x22N", "0°00\x270.00000\x22E") ∧
    ("5.12340" : String) ≠ "05.12340" := by
  refine ⟨?_, by decide⟩
  show (dmsAxis (8539 / 6000000) "N" "S", dmsAxis 0 "E" "W") = _
  rw [dmsAxis_zero_E]
  have ha : |(8539 / 6000000 : ℚ)| = 8539 / 6000000 := abs_of_nonneg (by norm_num)
  have hd : dms_degrees (8539 / 6000000 : ℚ) = 0 := by
    rw [dms_degrees_eq, ha]
    norm_num
  have hm : dms_minutes (8539 / 6000000 : ℚ) = 0 := by
    rw [dms_minutes_eq, ha]
    norm_num
  have hn : pyRound (dms_seconds (8539 / 6000000 : ℚ) * 10 ^ 5) = 512340 := by
    rw [dms_seconds_eq, ha]
    norm_num [pyRound]
  rw [dmsAxis_eval (8539 / 6000000) "N" "S" 0 0 512340 hd hm hn (by norm_num)]
  decide

/- ---------------------------------------------------------------------
C2: structure of the rendered DMS fields for arbitrary input.
--------------------------------------------------------------------- -/

theorem string_nil_append (s : String) : "" ++ s = s := rfl

theorem padZeroLeft_all_digit (width : ℕ) (s : String)
    (h : ∀ c ∈ s.data, c.isDigit = true) :
    ∀ c ∈ (padZeroLeft width s).data, c.isDigit = true := by
  unfold padZeroLeft
  split
  · intro c hc
    rw [String.data_append, List.mem_append] at hc
    rcases hc with hc | hc
    · rw [List.eq_of_mem_replicate hc]
      decide
    · exact h c hc
  · exact h

/-- C2 as amended.  For every input, each DMS output string renders its
seconds through the format `{sec:02.5f}`; the fixed-point rendering
always has at least 7 characters, so the format's minimum width of 2
never zero-pads the field and single-digit whole seconds appear
UNPADDED; the field carries exactly 5 digits after the (unique) decimal
point, and the minutes field is zero-padded to exactly 2 digits. -/
theorem C2_amended :
    (∀ point : Point,
      decimal_degrees_to_dms point = (dmsAxis point.Y "N" "S", dmsAxis point.X "E" "W")) ∧
    ∀ v : ℚ,
      0 ≤ dms_seconds v ∧ dms_seconds v < 60 ∧
      formatFloat 2 5 (dms_seconds v) = formatFixed 5 (dms_seconds v) ∧
      7 ≤ (formatFixed 5 (dms_seconds v)).length ∧
      formatFixed 5 (dms_seconds v) =
        natRepr ((pyRound (dms_seconds v * 10 ^ 5)).natAbs / 10 ^ 5) ++ "."
          ++ padZeroLeft 5 (natRepr ((pyRound (dms_seconds v * 10 ^ 5)).natAbs % 10 ^ 5)) ∧
      (padZeroLeft 5 (natRepr ((pyRound (dms_seconds v * 10 ^ 5)).natAbs % 10 ^ 5))).length = 5 ∧
      ((padZeroLeft 5 (natRepr ((pyRound (dms_seconds v * 10 ^ 5)).natAbs % 10 ^ 5))).data.all
        Char.isDigit) = true ∧
      ((natRepr ((pyRound (dms_seconds v * 10 ^ 5)).natAbs / 10 ^ 5)).data.all
        Char.isDigit) = true ∧
      0 ≤ dms_minutes v ∧ dms_minutes v < 60 ∧
      (padZeroLeft 2 (intRepr (dms_minutes v))).length = 2 := by
  refine ⟨fun _ => rfl, fun v => ?_⟩
  have hs0 : 0 ≤ dms_seconds v := pyDivmod_snd_nonneg (|v| * 3600) 60 (by norm_num)
  have hs60 : dms_seconds v < 60 := pyDivmod_snd_lt (|v| * 3600) 60 (by norm_num)
  have hn0 : 0 ≤ pyRound (dms_seconds v * 10 ^ 5) :=
    pyRound_nonneg _ (mul_nonneg hs0 (by norm_num))
  have hfix : formatFixed 5 (dms_seconds v) =
      natRepr ((pyRound (dms_seconds v * 10 ^ 5)).natAbs / 10 ^ 5) ++ "."
        ++ padZeroLeft 5 (natRepr ((pyRound (dms_seconds v * 10 ^ 5)).natAbs % 10 ^ 5)) := by
    simp only [formatFixed]
    rw [if_neg (not_lt.mpr hn0), string_nil_append]
  have hfrac_le : (natRepr ((pyRound (dms_seconds v * 10 ^ 5)).natAbs % 10 ^ 5)).length ≤ 5 :=
    natRepr_length_le _ 5 (Nat.mod_lt _ (by norm_num)) (by norm_num)
  have hfrac_len :
      (padZeroLeft 5 (natRepr ((pyRound (dms_seconds v * 10 ^ 5)).natAbs % 10 ^ 5))).length = 5 := by
    rw [padZeroLeft_length]
    omega
  have hlen7 : 7 ≤ (formatFixed 5 (dms_seconds v)).length := by
    rw [hfix, String.length_append, String.length_append, hfrac_len]
    have h1 : 0 < (natRepr ((pyRound (dms_seconds v * 10 ^ 5)).natAbs / 10 ^ 5)).length :=
      natRepr_length_pos _
    have h2 : ("." : String).length = 1 := rfl
    omega
  have hm0 : 0 ≤ (dms_divmod2 v).2 := pyDivmod_snd_nonneg _ 60 (by norm_num)
  have hm60 : (dms_divmod2 v).2 < 60 := pyDivmod_snd_lt _ 60 (by norm_num)
  have hmin_floor : dms_minutes v = ⌊(dms_divmod2 v).2⌋ := pyInt_eq_floor _ hm0
  have hmin0 : 0 ≤ dms_minutes v := by
    rw [hmin_floor]
    exact Int.floor_nonneg.mpr hm0
  have hmin60 : dms_minutes v < 60 := by
    rw [hmin_floor]
    exact Int.floor_lt.mpr (by exact_mod_cast hm60)
  refine ⟨hs0, hs60, ?_, hlen7, hfix, hfrac_len, ?_, ?_, hmin0, hmin60, ?_⟩
  · exact padZeroLeft_of_le 2 _ (by omega)
  · rw [List.all_eq_true]
    exact padZeroLeft_all_digit 5 _ (natRepr_all_digit _)
  · rw [List.all_eq_true]
    exact natRepr_all_digit _
  · have hrepr : intRepr (dms_minutes v) = natRepr (dms_minutes v).natAbs := by
      rw [intRepr, if_neg (not_lt.mpr hmin0), string_nil_append]
    have habs : (dms_minutes v).natAbs < 100 := by omega
    have hle : (natRepr (dms_minutes v).natAbs).length ≤ 2 :=
      natRepr_length_le _ 2 (by norm_num [habs]) (by norm_num)
    rw [hrepr, padZeroLeft_length]
    omega

end MetesWithoutBounds
